import Mathlib

/-!
Shallow embedding of the `bun-docs-mcp` proxy core
(`src/proxy/src/http/mod.rs` and `src/proxy/src/transport/mod.rs`).

The Bridge Client (`BunDocsClient.forward_request` / `parse_sse_response`)
is embedded as pure functions over an explicit model of one backend HTTP
exchange; the event-driven SSE stream becomes a finite list of poll
results, consumed in arrival order exactly as the Rust `while let` loop
does.  `serde_json::from_str` is a library call outside this repository,
so JSON parsing is a parameter `parse : String → Option Json` of the
embedding; everything downstream of the parse result is translated from
the source.  The stdio Transport becomes explicit state passing: stdin is
the list of not-yet-consumed input characters, stdout is the list of
write/flush actions issued.
-/

/-- Model of `serde_json::Value`: JSON values, with objects as association
lists of key/value pairs (serde maps have unique keys; lookup is by key). -/
inductive Json where
  | null : Json
  | bool : Bool → Json
  | num : Int → Json
  | str : String → Json
  | arr : List Json → Json
  | obj : List (String × Json) → Json
deriving Repr

/-- Model of `serde_json::Value::get(key)`: on an object, the value stored
under `key` (first match in the association list); `none` on any non-object
value or absent key. -/
def Json.get : Json → String → Option Json
  | .obj fields, key => fields.lookup key
  | _, _ => none

/-- Character-list test used to model Rust `str::contains(needle)`:
`true` when `needle` occurs as a leading run of `hay`. -/
def startsWithChars : List Char → List Char → Bool
  | [], _ => true
  | _ :: _, [] => false
  | a :: as, b :: bs => a == b && startsWithChars as bs

/-- Model of Rust `str::contains(needle)` on character lists: `true` when
`needle` occurs contiguously anywhere in `hay`. -/
def containsSub (needle : List Char) : List Char → Bool
  | [] => needle.isEmpty
  | b :: bs => startsWithChars needle (b :: bs) || containsSub needle bs

/-- Model of Rust `str::contains` on strings. -/
def strContains (hay needle : String) : Bool :=
  containsSub needle.toList hay.toList

/-- Model of `eventsource_stream::Event`: the decoded SSE event the loop in
`parse_sse_response` inspects — an event-type tag and a `data` payload. -/
structure SseEvent where
  event : String
  data : String
deriving Repr

/-- Model of one poll of the SSE event stream
(`event_stream.next().await` yielding `Some(event_result)`): either a
decoded event or a transport/decode error carrying its message. -/
inductive SseItem where
  | ok : SseEvent → SseItem
  | err : String → SseItem
deriving Repr

/-- Errors surfaced by `forward_request` (the `anyhow` failure cases of the
success-send path; `bail!`/`context` sites in `src/proxy/src/http/mod.rs`). -/
inductive ProxyError where
  | backendStatus : Nat → String → ProxyError
  | jsonParseFailed : ProxyError
  | noValidResponse : ProxyError
deriving Repr, DecidableEq

/-- Terminal-response test from `parse_sse_response`:
`parsed.get("result").is_some() || parsed.get("error").is_some()`. -/
def isTerminalValue (v : Json) : Bool :=
  (v.get "result").isSome || (v.get "error").isSome

/-- Loop body of `parse_sse_response`: consumes the poll results in order.
An `Ok(event)` with empty data is skipped; non-empty data is parsed, a
parse failure is logged and skipped, a parsed value lacking both `result`
and `error` is discarded; the first parsed value having `result` or
`error` is stored and the loop `break`s.  An `Err(e)` poll logs and
`break`s with nothing stored (a value already stored would have broken the
loop earlier).  Returns the stored `json_response`. -/
def sseLoop (parse : String → Option Json) : List SseItem → Option Json
  | [] => none
  | .ok e :: rest =>
      if e.data.isEmpty then sseLoop parse rest
      else
        match parse e.data with
        | some parsed =>
            if isTerminalValue parsed then some parsed
            else sseLoop parse rest
        | none => sseLoop parse rest
  | .err _ :: _ => none

/-- Model of `BunDocsClient.parse_sse_response`: run the event loop, then
`json_response.ok_or_else(no valid JSON-RPC response in SSE stream)`. -/
def parse_sse_response (parse : String → Option Json)
    (items : List SseItem) : Except ProxyError Json :=
  match sseLoop parse items with
  | some v => .ok v
  | none => .error .noValidResponse

/-- Model of one backend HTTP exchange as `forward_request` observes it
after `send()` succeeds: the status code, the `content-type` header
(`none` when the header is absent or its value is not readable as a
string, covering both `get` returning `None` and `to_str()` failing), the
body as text when readable (`response.text()` / the bytes `response.json()`
parses), and the SSE poll results decoded from the body bytes. -/
structure HttpResponse where
  status : Nat
  contentType : Option String
  body : Option String
  sseItems : List SseItem

/-- Model of `reqwest::StatusCode::is_success`: 2xx. -/
def statusIsSuccess (s : Nat) : Bool :=
  200 ≤ s && s ≤ 299

/-- Direct-JSON path of `forward_request`: `response.json().await` reads the
whole body and parses it as one JSON value; an unreadable body or a parse
failure is the `Failed to parse JSON response` error. -/
def directJsonPath (parse : String → Option Json)
    (body : Option String) : Except ProxyError Json :=
  match body with
  | none => .error .jsonParseFailed
  | some b =>
      match parse b with
      | some v => .ok v
      | none => .error .jsonParseFailed

/-- Model of `BunDocsClient`: its only field is the `reqwest::Client`
handle, which `forward_request` never mutates (it is behind `&self`). -/
structure BunDocsClient where
  client : Unit

/-- Model of `BunDocsClient.forward_request` from the point where the POST
has been sent and a response received.  Non-success status fails with the
`Bun Docs API error` carrying the status and the body text
(`unwrap_or_else(unknown error)` when the body cannot be read); otherwise
the `content-type` header (defaulted to `""`) selects the SSE path when it
contains `text/event-stream`, and the direct-JSON path otherwise. -/
def forward_request (parse : String → Option Json)
    (resp : HttpResponse) : Except ProxyError Json :=
  if !statusIsSuccess resp.status then
    .error (.backendStatus resp.status (resp.body.getD "unknown error"))
  else
    let contentType := resp.contentType.getD ""
    if strContains contentType "text/event-stream" then
      parse_sse_response parse resp.sseItems
    else
      directJsonPath parse resp.body

/-- State-passing form of the method call `client.forward_request(request)`:
the receiver is `&self`, so the call returns the client state unchanged
alongside the result. -/
def forwardRequestCall (c : BunDocsClient) (parse : String → Option Json)
    (resp : HttpResponse) : Except ProxyError Json × BunDocsClient :=
  (forward_request parse resp, c)

/-- Model of `tokio::io::AsyncBufReadExt::read_line` over the remaining
stdin characters: consume characters up to and including the next newline
(or through end of input when no newline remains), returning the consumed
line and the remaining input.  The number of bytes read is the length of
the first component; it is zero exactly at end of stream. -/
def readLineChars : List Char → List Char × List Char
  | [] => ([], [])
  | c :: cs =>
      if c = '\n' then ([c], cs)
      else
        let (line, rest) := readLineChars cs
        (c :: line, rest)

/-- Model of Rust `str::trim`: drop leading and trailing whitespace
characters. -/
def trimChars (l : List Char) : List Char :=
  ((l.dropWhile Char.isWhitespace).reverse.dropWhile Char.isWhitespace).reverse

/-- Model of `StdioTransport.read_message` with stdin as explicit state:
`read_line` one line; zero bytes read (end of stream) returns no message;
otherwise trim the line, return no message when the trimmed line is empty,
and the trimmed line itself otherwise.  The second component is the stdin
state left for the next call. -/
def read_message (input : List Char) : Option (List Char) × List Char :=
  let (line, rest) := readLineChars input
  if line = [] then (none, rest)
  else
    let trimmed := trimChars line
    if trimmed = [] then (none, rest)
    else (some trimmed, rest)

/-- Model of one stdout operation issued by `write_message`: a
`write_all` of some bytes, or a `flush`. -/
inductive OutAction where
  | writeAll : List Char → OutAction
  | flush : OutAction
deriving Repr, DecidableEq

/-- Model of `StdioTransport.write_message`: the exact sequence of stdout
operations the method performs — write the message bytes, write the single
newline byte, then flush. -/
def write_message (message : List Char) : List OutAction :=
  [.writeAll message, .writeAll ['\n'], .flush]

/-- Bytes appearing on stdout after a sequence of operations: the
concatenation of all written chunks. -/
def renderedBytes : List OutAction → List Char
  | [] => []
  | .writeAll bs :: rest => bs ++ renderedBytes rest
  | .flush :: rest => renderedBytes rest

/-- Characterisation of the SSE poll results the loop in
`parse_sse_response` passes over without storing a response: a decoded
event whose data is empty, or whose data fails to parse, or whose parsed
value has neither a `result` nor an `error` key.  A stream error is never
passed over (the loop `break`s on it). -/
def skipsItem (parse : String → Option Json) : SseItem → Bool
  | .ok e =>
      e.data.isEmpty || (parse e.data).elim true (fun v => !isTerminalValue v)
  | .err _ => false

/-- Messages of the `forward_request` failure values, as formatted at the
`bail!` / `anyhow!` / `context` sites in `src/proxy/src/http/mod.rs`
(the status is rendered here as its bare code). -/
def renderProxyError : ProxyError → String
  | .backendStatus s t => "Bun Docs API error: " ++ toString s ++ " - " ++ t
  | .jsonParseFailed => "Failed to parse JSON response"
  | .noValidResponse => "No valid JSON-RPC response in SSE stream"

/-- Concrete JSON parse function used by the witnesses: `"t"` parses to a
terminal object carrying a `result` key, `"e"` to one carrying an `error`
key, `"n"` to a non-terminal object, and everything else fails to parse. -/
def testParse : String → Option Json :=
  fun s =>
    if s = "t" then some (Json.obj [("result", Json.num 1)])
    else if s = "e" then some (Json.obj [("error", Json.null)])
    else if s = "n" then some (Json.obj [("jsonrpc", Json.str "2.0")])
    else none

/-- Concrete backend exchange used by witnesses: status 500 with a
readable body `"server error"`. -/
def resp500 : HttpResponse :=
  { status := 500, contentType := some "application/json",
    body := some "server error", sseItems := [] }

/-- Concrete backend exchange used by witnesses: a direct JSON response
whose whole body parses (via `testParse`) to a terminal value. -/
def respDirect : HttpResponse :=
  { status := 200, contentType := some "application/json",
    body := some "t", sseItems := [] }

/-- Concrete backend exchange used by witnesses: a successful response
with no readable `content-type` header. -/
def respNoCT : HttpResponse :=
  { status := 200, contentType := none,
    body := some "t", sseItems := [SseItem.ok ⟨"message", "t"⟩] }

/-- Concrete backend exchange used by witnesses: an SSE response whose
stream carries a keep-alive event, a malformed event, the terminal event,
and a trailing event the loop must never reach. -/
def respSse : HttpResponse :=
  { status := 200, contentType := some "text/event-stream",
    body := none,
    sseItems := [SseItem.ok ⟨"", ""⟩, SseItem.ok ⟨"message", "garbage"⟩,
                 SseItem.ok ⟨"message", "t"⟩, SseItem.err "unreached"] }

theorem sseLoop_cons_skip (parse : String → Option Json) (i : SseItem)
    (rest : List SseItem) (h : skipsItem parse i = true) :
    sseLoop parse (i :: rest) = sseLoop parse rest := by
  cases i with
  | ok e =>
      by_cases hd : e.data.isEmpty = true
      · simp [sseLoop, hd]
      · cases hp : parse e.data with
        | none => simp [sseLoop, hd, hp]
        | some v =>
            have hv : isTerminalValue v = false := by
              simp [skipsItem, hd, hp] at h
              simpa using h
            simp [sseLoop, hd, hp, hv]
  | err m => simp [skipsItem] at h

theorem sseLoop_skip_all (parse : String → Option Json) (pre post : List SseItem)
    (h : ∀ i ∈ pre, skipsItem parse i = true) :
    sseLoop parse (pre ++ post) = sseLoop parse post := by
  induction pre with
  | nil => rfl
  | cons i is ih =>
      rw [List.cons_append, sseLoop_cons_skip parse i _ (h i (List.mem_cons_self i is))]
      exact ih fun j hj => h j (List.mem_cons_of_mem i hj)

theorem startsWithChars_append (l r : List Char) :
    startsWithChars l (l ++ r) = true := by
  induction l with
  | nil => rfl
  | cons c cs ih => simp [startsWithChars, ih]

theorem containsSub_append_left (n r : List Char) :
    containsSub n (n ++ r) = true := by
  cases n with
  | nil =>
      cases r with
      | nil => rfl
      | cons c cs => simp [containsSub, startsWithChars]
  | cons a as =>
      have h := startsWithChars_append (a :: as) r
      rw [List.cons_append] at h
      simp [containsSub, h]

theorem containsSub_self (n : List Char) : containsSub n n = true := by
  simpa using containsSub_append_left n []

theorem containsSub_cons (n : List Char) (c : Char) (l : List Char)
    (h : containsSub n l = true) : containsSub n (c :: l) = true := by
  simp [containsSub, h]

theorem containsSub_append_right (n pre l : List Char)
    (h : containsSub n l = true) : containsSub n (pre ++ l) = true := by
  induction pre with
  | nil => simpa using h
  | cons c cs ih => simpa [List.cons_append] using containsSub_cons n c (cs ++ l) ih

theorem strContains_backend_message (s : Nat) (t : String) :
    strContains (renderProxyError (ProxyError.backendStatus s t)) (toString s) = true ∧
    strContains (renderProxyError (ProxyError.backendStatus s t)) t = true := by
  constructor
  · have hsplit : ("Bun Docs API error: " ++ toString s ++ " - " ++ t).toList =
        "Bun Docs API error: ".toList ++
          ((toString s).toList ++ (" - ".toList ++ t.toList)) := by
      simp [String.toList]
    unfold strContains renderProxyError
    rw [hsplit]
    exact containsSub_append_right _ _ _ (containsSub_append_left _ _)
  · have hsplit : ("Bun Docs API error: " ++ toString s ++ " - " ++ t).toList =
        ("Bun Docs API error: ".toList ++ ((toString s).toList ++ " - ".toList)) ++
          t.toList := by
      simp [String.toList]
    unfold strContains renderProxyError
    rw [hsplit]
    exact containsSub_append_right _ _ _ (containsSub_self _)

theorem dropWhile_dropWhile_self (p : Char → Bool) (l : List Char) :
    (l.dropWhile p).dropWhile p = l.dropWhile p := by
  induction l with
  | nil => rfl
  | cons c cs ih =>
      by_cases hc : p c = true
      · simpa [List.dropWhile_cons, hc] using ih
      · simp [List.dropWhile_cons, hc]

theorem dropWhile_eq_self_of_isPrefix (p : Char → Bool) {m a : List Char}
    (hp : m <+: a) (ha : a.dropWhile p = a) : m.dropWhile p = m := by
  cases m with
  | nil => rfl
  | cons c m' =>
      obtain ⟨t, ht⟩ := hp
      subst ht
      by_cases hc : p c = true
      · exfalso
        rw [List.cons_append, List.dropWhile_cons] at ha
        simp only [hc, if_true] at ha
        have hlen := congrArg List.length ha
        have hle := (List.dropWhile_suffix p (l := m' ++ t)).sublist.length_le
        rw [hlen] at hle
        simp [List.length_cons, List.length_append] at hle
      · simp [List.dropWhile_cons, hc]

theorem trimChars_no_leading (l : List Char) :
    (trimChars l).dropWhile Char.isWhitespace = trimChars l := by
  have haa : (l.dropWhile Char.isWhitespace).dropWhile Char.isWhitespace =
      l.dropWhile Char.isWhitespace := dropWhile_dropWhile_self _ l
  apply dropWhile_eq_self_of_isPrefix Char.isWhitespace ?_ haa
  unfold trimChars
  conv_rhs => rw [← List.reverse_reverse (l.dropWhile Char.isWhitespace)]
  exact List.reverse_prefix.mpr (List.dropWhile_suffix _)

theorem trimChars_no_trailing (l : List Char) :
    (trimChars l).reverse.dropWhile Char.isWhitespace = (trimChars l).reverse := by
  unfold trimChars
  rw [List.reverse_reverse]
  exact dropWhile_dropWhile_self _ _

/-- C1: during SSE response recovery, consumption stops at the first event
whose data parses as JSON with a `result` or `error` key; that parsed
value is returned unchanged as the response, no further stream items are
consumed (the tail `post` is arbitrary and unused), and every earlier
successfully-parsed value lacking both keys was discarded with consumption
continuing. -/
theorem sse_first_terminal_returned (parse : String → Option Json)
    (pre post : List SseItem) (e : SseEvent) (v : Json)
    (hpre : ∀ i ∈ pre, skipsItem parse i = true)
    (hdata : e.data.isEmpty = false)
    (hparse : parse e.data = some v)
    (hterm : isTerminalValue v = true) :
    parse_sse_response parse (pre ++ SseItem.ok e :: post) = .ok v := by
  have h : sseLoop parse (pre ++ SseItem.ok e :: post) = some v := by
    rw [sseLoop_skip_all parse pre _ hpre]
    simp [sseLoop, hdata, hparse, hterm]
  simp [parse_sse_response, h]

theorem sse_first_terminal_returned_witness :
    parse_sse_response testParse
      [SseItem.ok ⟨"", ""⟩, SseItem.ok ⟨"m", "garbage"⟩, SseItem.ok ⟨"m", "n"⟩,
       SseItem.ok ⟨"m", "t"⟩, SseItem.err "x"] =
      .ok (Json.obj [("result", Json.num 1)]) :=
  sse_first_terminal_returned testParse
    [SseItem.ok ⟨"", ""⟩, SseItem.ok ⟨"m", "garbage"⟩, SseItem.ok ⟨"m", "n"⟩]
    [SseItem.err "x"] ⟨"m", "t"⟩ (Json.obj [("result", Json.num 1)])
    (by decide) rfl rfl rfl

/-- C3: during SSE response recovery, an event with an empty data field is
skipped, and an event whose non-empty data fails to parse as JSON is
skipped without aborting the stream; in both cases consumption proceeds to
the next item exactly as if the event had not occurred. -/
theorem sse_skip_empty_or_malformed (parse : String → Option Json)
    (e : SseEvent) (rest : List SseItem) :
    (e.data.isEmpty = true →
      sseLoop parse (SseItem.ok e :: rest) = sseLoop parse rest) ∧
    (e.data.isEmpty = false → parse e.data = none →
      sseLoop parse (SseItem.ok e :: rest) = sseLoop parse rest) := by
  constructor
  · intro h
    simp [sseLoop, h]
  · intro hd hp
    simp [sseLoop, hd, hp]

theorem sse_skip_empty_or_malformed_witness :
    sseLoop testParse [SseItem.ok ⟨"", ""⟩, SseItem.ok ⟨"m", "t"⟩] =
      sseLoop testParse [SseItem.ok ⟨"m", "t"⟩] ∧
    sseLoop testParse [SseItem.ok ⟨"m", "garbage"⟩, SseItem.ok ⟨"m", "t"⟩] =
      sseLoop testParse [SseItem.ok ⟨"m", "t"⟩] :=
  ⟨(sse_skip_empty_or_malformed testParse ⟨"", ""⟩
      [SseItem.ok ⟨"m", "t"⟩]).1 rfl,
   (sse_skip_empty_or_malformed testParse ⟨"m", "garbage"⟩
      [SseItem.ok ⟨"m", "t"⟩]).2 rfl rfl⟩

/-- C4: an SSE stream that ends without any event having yielded a parsed
JSON value containing a `result` or `error` key resolves to the
`no valid response` error, with no partial value and no retry. -/
theorem sse_all_nonterminal_fails (parse : String → Option Json)
    (items : List SseItem)
    (h : ∀ i ∈ items, skipsItem parse i = true) :
    parse_sse_response parse items = .error ProxyError.noValidResponse := by
  have hl : sseLoop parse items = none := by
    have h2 := sseLoop_skip_all parse items [] h
    simpa using h2
  simp [parse_sse_response, hl]

theorem sse_all_nonterminal_fails_witness :
    parse_sse_response testParse
      [SseItem.ok ⟨"", ""⟩, SseItem.ok ⟨"m", "garbage"⟩, SseItem.ok ⟨"m", "n"⟩] =
      .error ProxyError.noValidResponse :=
  sse_all_nonterminal_fails testParse
    [SseItem.ok ⟨"", ""⟩, SseItem.ok ⟨"m", "garbage"⟩, SseItem.ok ⟨"m", "n"⟩]
    (by decide)

/-- C5: a transport-level error polled from the SSE stream before any
terminal response was found stops consumption immediately (the tail `post`
is arbitrary and unused), fabricates no response value, and resolves the
exchange as a failure. -/
theorem sse_stream_error_stops (parse : String → Option Json)
    (pre post : List SseItem) (msg : String)
    (hpre : ∀ i ∈ pre, skipsItem parse i = true) :
    parse_sse_response parse (pre ++ SseItem.err msg :: post) =
      .error ProxyError.noValidResponse := by
  have hl : sseLoop parse (pre ++ SseItem.err msg :: post) = none := by
    rw [sseLoop_skip_all parse pre _ hpre]
    rfl
  simp [parse_sse_response, hl]

theorem sse_stream_error_stops_witness :
    parse_sse_response testParse
      [SseItem.ok ⟨"", ""⟩, SseItem.err "connection reset", SseItem.ok ⟨"m", "t"⟩] =
      .error ProxyError.noValidResponse :=
  sse_stream_error_stops testParse [SseItem.ok ⟨"", ""⟩] [SseItem.ok ⟨"m", "t"⟩]
    "connection reset" (by decide)

/-- C2: on a successful backend exchange, `forward_request` dispatches on
the response `Content-Type` header — the SSE path exactly when the header
value contains `text/event-stream`, the direct whole-body JSON path
otherwise; in particular a direct JSON body parsing to a value with a
`result` key is returned exactly as that parsed value. -/
theorem forward_request_dispatch (parse : String → Option Json)
    (resp : HttpResponse) (hs : statusIsSuccess resp.status = true) :
    (strContains (resp.contentType.getD "") "text/event-stream" = true →
      forward_request parse resp = parse_sse_response parse resp.sseItems) ∧
    (strContains (resp.contentType.getD "") "text/event-stream" = false →
      forward_request parse resp = directJsonPath parse resp.body) ∧
    (∀ b v, strContains (resp.contentType.getD "") "text/event-stream" = false →
      resp.body = some b → parse b = some v → (v.get "result").isSome = true →
      forward_request parse resp = .ok v) := by
  refine ⟨fun hct => ?_, fun hct => ?_, fun b v hct hb hv _ => ?_⟩
  · simp [forward_request, hs, hct]
  · simp [forward_request, hs, hct]
  · simp [forward_request, hs, hct, directJsonPath, hb, hv]

theorem forward_request_dispatch_witness :
    statusIsSuccess respDirect.status = true ∧
    forward_request testParse respDirect = .ok (Json.obj [("result", Json.num 1)]) :=
  ⟨by decide,
   (forward_request_dispatch testParse respDirect (by decide)).2.2 "t"
     (Json.obj [("result", Json.num 1)]) (by decide) rfl rfl rfl⟩

/-- C6: a backend response with a non-success HTTP status makes
`forward_request` fail with the backend error carrying the status code and
the response body text, with the placeholder `unknown error` substituted
when the body cannot be read; the rendered error message contains both the
status code and the body text. -/
theorem forward_request_backend_status (parse : String → Option Json)
    (resp : HttpResponse) (h : statusIsSuccess resp.status = false) :
    forward_request parse resp =
      .error (ProxyError.backendStatus resp.status (resp.body.getD "unknown error")) ∧
    strContains
      (renderProxyError
        (ProxyError.backendStatus resp.status (resp.body.getD "unknown error")))
      (toString resp.status) = true ∧
    strContains
      (renderProxyError
        (ProxyError.backendStatus resp.status (resp.body.getD "unknown error")))
      (resp.body.getD "unknown error") = true := by
  refine ⟨by simp [forward_request, h], ?_, ?_⟩
  · exact (strContains_backend_message resp.status (resp.body.getD "unknown error")).1
  · exact (strContains_backend_message resp.status (resp.body.getD "unknown error")).2

theorem forward_request_backend_status_witness :
    statusIsSuccess resp500.status = false ∧
    forward_request testParse resp500 =
      .error (ProxyError.backendStatus 500 "server error") ∧
    strContains (renderProxyError (ProxyError.backendStatus 500 "server error"))
      "500" = true ∧
    strContains (renderProxyError (ProxyError.backendStatus 500 "server error"))
      "server error" = true := by
  have h := forward_request_backend_status testParse resp500 (by decide)
  exact ⟨by decide, h.1, h.2.1, h.2.2⟩

/-- C7: `read_message` returns no message exactly when the line read (empty
at end of stream) trims to nothing — covering end-of-stream with zero bytes
read and blank lines — and any returned message is the line stripped of its
terminator and surrounding whitespace, hence non-empty with no leading and
no trailing whitespace. -/
theorem read_message_contract (input : List Char) :
    ((read_message input).1 = none ↔
      trimChars (readLineChars input).1 = []) ∧
    (∀ msg rest, read_message input = (some msg, rest) →
      msg = trimChars (readLineChars input).1 ∧ msg ≠ [] ∧
      msg.dropWhile Char.isWhitespace = msg ∧
      msg.reverse.dropWhile Char.isWhitespace = msg.reverse) := by
  rcases hrl : readLineChars input with ⟨line, rest0⟩
  by_cases hl : line = []
  · subst hl
    constructor
    · simp [read_message, hrl, trimChars]
    · intro msg rest h
      simp [read_message, hrl] at h
  · by_cases ht : trimChars line = []
    · constructor
      · simp [read_message, hrl, hl, ht]
      · intro msg rest h
        simp [read_message, hrl, hl, ht] at h
    · constructor
      · simp [read_message, hrl, hl, ht]
      · intro msg rest h
        simp only [read_message, hrl] at h
        rw [if_neg hl, if_neg ht] at h
        obtain ⟨hmsg, -⟩ := Prod.mk.injEq .. ▸ h
        cases hmsg
        exact ⟨rfl, ht, trimChars_no_leading line, trimChars_no_trailing line⟩

theorem read_message_contract_witness :
    (read_message ([] : List Char)).1 = none ∧
    (read_message ['\n']).1 = none ∧
    (['h'] = trimChars (readLineChars [' ', 'h', ' ', '\n', 'x']).1 ∧
     ['h'] ≠ [] ∧
     ['h'].dropWhile Char.isWhitespace = ['h'] ∧
     ['h'].reverse.dropWhile Char.isWhitespace = ['h'].reverse) :=
  ⟨(read_message_contract []).1.mpr (by decide),
   (read_message_contract ['\n']).1.mpr (by decide),
   (read_message_contract [' ', 'h', ' ', '\n', 'x']).2 ['h'] ['x'] (by decide)⟩

/-- C8: `write_message` issues exactly the writes of the message bytes and
one newline followed by a flush, so the bytes appearing on stdout are
exactly the message followed by a single newline with nothing else
appended, and the flush is the final operation. -/
theorem write_message_exact (message : List Char) :
    renderedBytes (write_message message) = message ++ ['\n'] ∧
    (write_message message).getLast? = some OutAction.flush := by
  constructor
  · simp [write_message, renderedBytes]
  · rfl

/-- C9: `forward_request` is deterministic and mutates no client state:
the call leaves the `BunDocsClient` unchanged, and a second call with the
same request against identical backend behavior yields the same relayed
response. -/
theorem forward_request_idempotent (c : BunDocsClient)
    (parse : String → Option Json) (resp : HttpResponse) :
    (forwardRequestCall c parse resp).2 = c ∧
    (forwardRequestCall ((forwardRequestCall c parse resp).2) parse resp).1 =
      (forwardRequestCall c parse resp).1 :=
  ⟨rfl, rfl⟩

/-- C10: a successful backend response whose `Content-Type` header is
absent or not readable as a string is treated as having the empty content
type, so `forward_request` takes the direct-JSON path parsing the whole
body, never the SSE path. -/
theorem forward_request_absent_content_type (parse : String → Option Json)
    (resp : HttpResponse) (hs : statusIsSuccess resp.status = true)
    (hct : resp.contentType = none) :
    forward_request parse resp = directJsonPath parse resp.body := by
  have hf : strContains "" "text/event-stream" = false := by decide
  simp [forward_request, hs, hct, hf]

theorem forward_request_absent_content_type_witness :
    statusIsSuccess respNoCT.status = true ∧ respNoCT.contentType = none ∧
    forward_request testParse respNoCT = directJsonPath testParse respNoCT.body :=
  ⟨by decide, rfl,
   forward_request_absent_content_type testParse respNoCT (by decide) rfl⟩
